import Mathlib

/-!
Verification development for the graphql-mesh runtime core
(`packages/runtime/src/get-mesh.ts`) and the Neo4J source handler
(`packages/handlers/neo4j/src/index.ts`).

The TypeScript sources are shallowly embedded: JavaScript values that only
matter through their truthiness and identity are modelled by an inductive
`Jsv`; optional object keys are modelled by `Option`; a thrown exception is
modelled by an explicit error constructor of the return type.  External
libraries (graphql-js, graphql-tools, the merger, the live query store,
neo4j-driver) appear only at their call boundary: either as opaque function
parameters supplied by the caller or as small executable models noted in the
corresponding doc comment.
-/

namespace GraphQLMesh

/-- Model of a JavaScript runtime value, as far as the runtime core observes
one: the code under verification only branches on truthiness and passes the
values through otherwise. `undefined` is the JS `undefined`. -/
inductive Jsv : Type where
  | undefined : Jsv
  | null : Jsv
  | bool : Bool → Jsv
  | num : Int → Jsv
  | str : String → Jsv
  | obj : List (String × Jsv) → Jsv
  | arr : List Jsv → Jsv
  deriving Repr

/-- JavaScript truthiness of a value: `undefined`, `null`, `false`, `0` and
`""` are falsy; every object and array (even empty) is truthy. -/
def Jsv.truthy : Jsv → Bool
  | .undefined => false
  | .null => false
  | .bool b => b
  | .num n => n != 0
  | .str s => s ≠ ""
  | .obj _ => true
  | .arr _ => true

/-- Reading a possibly absent object property: an absent key reads as
`undefined` in JavaScript. -/
def readOpt : Option Jsv → Jsv
  | none => Jsv.undefined
  | some v => v

/-! ## Neo4J handler (`packages/handlers/neo4j/src/index.ts`)

The handler holds a lazily created driver.  The neo4j-driver library is
external; a created driver is modelled by the value of a counter so that
"same driver object" is expressible, and `pubsub.subscribe` is modelled by
counting the subscriptions the handler has registered. -/

/-- Configuration of the Neo4J handler (`YamlConfig.Neo4JHandler`), the
fields the embedded code reads. -/
structure Neo4JConfig where
  url : String
  username : String
  password : String
  database : Option String
  alwaysIncludeRelationships : Bool
  cacheIntrospection : Bool
  deriving Repr, DecidableEq

/-- Mutable state of one `Neo4JHandler` instance, together with the part of
the ambient world the handler touches: `driver` is the `this.driver` field
(`none` before first creation, `some id` the identity of the created driver),
`driversCreated` counts calls into `neo4j.driver` (driver identities are
handed out as `0, 1, 2, …`), and `destroySubscriptions` counts how often the
handler has subscribed a release handler to the `destroy` event. -/
structure Neo4JHandlerState where
  driver : Option Nat
  driversCreated : Nat
  destroySubscriptions : Nat
  deriving Repr, DecidableEq

/-- The state produced by the `Neo4JHandler` constructor: it only stores the
constructor arguments; no driver is created and nothing is subscribed. -/
def Neo4JHandler.initState : Neo4JHandlerState :=
  { driver := none, driversCreated := 0, destroySubscriptions := 0 }

/-- `Neo4JHandler.getDriver`: if `this.driver` is unset, create the driver
and subscribe the close handler to the `destroy` event; return the driver. -/
def Neo4JHandler.getDriver (st : Neo4JHandlerState) : Nat × Neo4JHandlerState :=
  match st.driver with
  | none =>
      let d := st.driversCreated
      (d, { driver := some d
            driversCreated := st.driversCreated + 1
            destroySubscriptions := st.destroySubscriptions + 1 })
  | some d => (d, st)

/-- Iterated calls to `getDriver`: `getDriverCalls st n` is the list of
returned drivers of `n` successive calls, with the final state. -/
def Neo4JHandler.getDriverCalls (st : Neo4JHandlerState) : Nat → List Nat × Neo4JHandlerState
  | 0 => ([], st)
  | n + 1 =>
      let (d, st') := Neo4JHandler.getDriver st
      let (ds, st'') := Neo4JHandler.getDriverCalls st' n
      (d :: ds, st'')

/-- The object returned by a source handler's `getMeshSource`, modelled as a
record of the keys such an object may carry; `none` means the key is absent
from the returned object literal. -/
structure MeshSourceShape where
  schema : Jsv
  executor : Option Jsv
  contextVariables : Option (List String)
  batch : Option Jsv
  contextBuilder : Option Jsv
  deriving Repr

/-- `Neo4JHandler.getMeshSource`, with its two external collaborators passed
in at the boundary: `inferSchema` (neo4j-graphql-js introspection, giving the
inferred `typeDefs`) and `makeAugmentedSchema` (schema construction from
`typeDefs`).  `cachedTypeDefs` is what `this.cache.get(name + "_introspection")`
returns (`none` for a cache miss).  The function returns the constructed
source object together with the typeDefs value written back to the cache
(`none` when no cache write happens). -/
def Neo4JHandler.getMeshSource (config : Neo4JConfig)
    (cachedTypeDefs : Option String)
    (inferSchema : Neo4JConfig → String)
    (makeAugmentedSchema : String → Jsv) :
    MeshSourceShape × Option String :=
  let typeDefs0 : Jsv :=
    if config.cacheIntrospection then readOpt (cachedTypeDefs.map Jsv.str) else Jsv.undefined
  let inferred := inferSchema config
  let typeDefs : String :=
    if typeDefs0.truthy then
      match typeDefs0 with
      | .str s => s
      | _ => ""
    else inferred
  let cacheWrite : Option String :=
    if typeDefs0.truthy then none
    else if config.cacheIntrospection then some typeDefs else none
  ({ schema := makeAugmentedSchema typeDefs
     executor := none
     contextVariables := none
     batch := none
     contextBuilder := some (Jsv.str "contextBuilder") }, cacheWrite)

/-! ## Source registry (`getMesh`, lines 62–111)

`getMesh` first builds the raw source registry: for each configured source it
invokes the handler's `getMeshSource` inside a `try`/`catch`, applies the
"no-wrap" transforms, and pushes a `RawSourceOutput`; any per-source failure
is logged and flips the `failed` flag; `Promise.allSettled` waits for every
source.  After all settle, if any failed, one fixed-message error is thrown.
The model serialises the settled-all barrier as a pure map over the source
list: every source is processed regardless of sibling outcomes.  External
collaborators (`applySchemaTransforms`, the merger) are function parameters. -/

/-- A schema transform as the registry observes it: `groupTransforms`
(external, `@graphql-mesh/utils`) partitions the configured transforms into
wrapping and non-wrapping ones, so a transform is modelled by its group tag
plus an opaque payload. -/
inductive Transform : Type where
  | wrap : Jsv → Transform
  | noWrap : Jsv → Transform

/-- Result of `groupTransforms`. -/
structure GroupedTransforms where
  wrapTransforms : List Jsv
  noWrapTransforms : List Jsv

/-- Model of `groupTransforms`: partition by the group tag. -/
def groupTransforms (transforms : List Transform) : GroupedTransforms :=
  { wrapTransforms := transforms.filterMap fun t =>
      match t with | .wrap v => some v | .noWrap _ => none
    noWrapTransforms := transforms.filterMap fun t =>
      match t with | .wrap _ => none | .noWrap v => some v }

/-- One configured source as `getMesh` consumes it: its name, the outcome of
`apiSource.handler.getMeshSource()` (an exception is `.error`), the handler
object itself (opaque), the configured transforms and merge config. -/
structure SourceConfig where
  name : String
  handlerResult : Except String MeshSourceShape
  handler : Jsv
  transforms : List Transform
  merge : Option Jsv

/-- The `RawSourceOutput` record pushed onto `rawSources`
(get-mesh.ts lines 88–97). -/
structure RawSourceOutput where
  name : String
  schema : Jsv
  executor : Option Jsv
  transforms : List Jsv
  contextVariables : List String
  handler : Jsv
  batch : Jsv
  merge : Option Jsv

/-- Per-source body of the registry loop (get-mesh.ts lines 70–104): invoke
the handler, apply no-wrap transforms when present, and build the raw source
record; a handler exception is caught and reported as `.error`.
`applySchemaTransforms` is the external transform applier. -/
def processSource (applySchemaTransforms : Jsv → List Jsv → Jsv)
    (apiSource : SourceConfig) : Except String RawSourceOutput :=
  match apiSource.handlerResult with
  | .error e => .error e
  | .ok source =>
      let grouped := groupTransforms apiSource.transforms
      let apiSchema :=
        if grouped.noWrapTransforms.length ≠ 0 then
          applySchemaTransforms source.schema grouped.noWrapTransforms
        else source.schema
      .ok { name := apiSource.name
            schema := apiSchema
            executor := source.executor
            transforms := grouped.wrapTransforms
            contextVariables := source.contextVariables.getD []
            handler := apiSource.handler
            batch := match source.batch with
                     | some b => b
                     | none => Jsv.bool true
            merge := apiSource.merge }

/-- The fixed message of the error thrown when at least one source failed
(get-mesh.ts lines 108–110). -/
def schemasFailedMessage : String :=
  "Schemas couldn\x27t be generated successfully. Check for the logs by running Mesh with DEBUG=1 environmental variable to get more verbose output."

/-- Outcome of the registry phase: which sources had their handler invoked,
the per-source error log lines, and the overall result. -/
structure RegistryResult where
  invoked : List String
  logs : List (String × String)
  result : Except String (List RawSourceOutput)

/-- The registry phase of `getMesh` (lines 62–111): process every source
behind the settle-all barrier, collect failures, and either fail with the one
fixed-message error or return the raw source list. -/
def getMeshRegistry (applySchemaTransforms : Jsv → List Jsv → Jsv)
    (sources : List SourceConfig) : RegistryResult :=
  let outcomes := sources.map fun s => (s.name, processSource applySchemaTransforms s)
  { invoked := sources.map (·.name)
    logs := outcomes.filterMap fun p =>
      match p.2 with
      | .error e => some (p.1, "Failed to generate schema: " ++ e)
      | .ok _ => none
    result :=
      if outcomes.any (fun p => match p.2 with | .error _ => true | .ok _ => false) then
        .error schemasFailedMessage
      else
        .ok (outcomes.filterMap fun p => p.2.toOption) }

/-- The unified schema produced by the external merger: an opaque schema
value with the `extensions.sourceMap` attached, keyed by raw-source identity
(modelled as the index into `rawSources`). -/
structure UnifiedSchema where
  schema : Jsv
  sourceMap : List (Nat × Jsv)

/-- The parts of the returned mesh instance the claims are about. -/
structure MeshInstanceModel where
  rawSources : List RawSourceOutput
  unifiedSchema : UnifiedSchema

/-- `getMesh` down to the in-context SDK phase: build the registry, merge
via the external `merger`, then for every raw source look up its transformed
schema in `sourceMap` (a missing entry crashes the in-context SDK phase with
a TypeError, modelled by `.error`). Returns the registry bookkeeping and the
overall outcome. -/
def getMesh (applySchemaTransforms : Jsv → List Jsv → Jsv)
    (merger : List RawSourceOutput → UnifiedSchema)
    (sources : List SourceConfig) : RegistryResult × Except String MeshInstanceModel :=
  let reg := getMeshRegistry applySchemaTransforms sources
  (reg,
   match reg.result with
   | .error e => .error e
   | .ok rawSources =>
       let unifiedSchema := merger rawSources
       if (List.range rawSources.length).all
            (fun i => ((unifiedSchema.sourceMap.filter (fun p => p.1 = i)).length = 1 : Bool)) then
         .ok { rawSources := rawSources, unifiedSchema := unifiedSchema }
       else
         .error "TypeError: transformedSchema is undefined")

/-! ## Selection sets (`normalizeSelectionSetParam(OrFactory)`, lines 427–448)

The runtime accepts a selection set as a GraphQL-syntax string, a parsed
document, an already-parsed selection-set node, or a factory producing one of
those.  The graphql-js `print`/`parse` pair is external; it is modelled on
the canonical single-line fragment of the selection-set grammar (`{ a b { c } }`
with single spaces), which is closed under the model printer.  A parse
failure (graphql-js throws a syntax error) is modelled by `none`. -/

/-- A field of a selection set: the field name and its (possibly empty)
sub-selection.  Aliases, arguments, fragments and directives are outside the
modelled fragment. -/
inductive FieldNode : Type where
  | mk : String → List FieldNode → FieldNode

/-- The field's name. -/
def FieldNode.name : FieldNode → String
  | .mk n _ => n

/-- The field's sub-selection. -/
def FieldNode.subSelections : FieldNode → List FieldNode
  | .mk _ s => s

/-- A selection-set node is its list of selections. -/
abbrev SelectionSetNode := List FieldNode

/-- Characters admissible in a field name in the modelled fragment. -/
def isNameChar (c : Char) : Bool := c.isAlpha || c.isDigit || c = '_'

/-- A valid field name: nonempty and made of name characters. -/
def validName (s : String) : Bool := s.data ≠ [] && s.data.all isNameChar

mutual

/-- Validity of one field of the modelled fragment. -/
def validField : FieldNode → Bool
  | .mk n sub => validName n && validFields sub

/-- Validity of a selection list of the modelled fragment. -/
def validFields : List FieldNode → Bool
  | [] => true
  | f :: fs => validField f && validFields fs

end

mutual

/-- Canonical printing of one field: `name` or `name { …sub… }`. -/
def printField : FieldNode → List Char
  | .mk n [] => n.data
  | .mk n (f :: fs) => n.data ++ ' ' :: '{' :: (printItems (f :: fs) ++ [' ', '}'])

/-- Canonical printing of the items of a selection set, each preceded by one
space (the closing space-brace is appended by the caller). -/
def printItems : List FieldNode → List Char
  | [] => []
  | f :: fs => ' ' :: (printField f ++ printItems fs)

end

/-- Model of graphql-js `print` on a selection set: the canonical string
`{ a b { c } }`. -/
def printSelectionSet (fs : SelectionSetNode) : String :=
  ⟨'{' :: (printItems fs ++ [' ', '}'])⟩

/-- Longest leading run of name characters. -/
def spanName : List Char → List Char × List Char
  | [] => ([], [])
  | c :: rest =>
      if isNameChar c then
        let p := spanName rest
        (c :: p.1, p.2)
      else ([], c :: rest)

/-- Recursive-descent parser for the items of a selection set, consuming the
terminating ` }` as well; `fuel` bounds the nesting recursion. -/
def parseItems : Nat → List Char → Option (SelectionSetNode × List Char)
  | 0, _ => none
  | _ + 1, [] => none
  | fuel + 1, c :: cs =>
      if c = ' ' then
        match cs with
        | [] => none
        | c2 :: cs2 =>
            if c2 = '}' then some ([], cs2)
            else
              let p := spanName (c2 :: cs2)
              if p.1 = [] then none
              else if p.2.take 2 = [' ', '{'] then
                match parseItems fuel (p.2.drop 2) with
                | none => none
                | some (sub, rest4) =>
                    match parseItems fuel rest4 with
                    | none => none
                    | some (siblings, rest5) => some (.mk ⟨p.1⟩ sub :: siblings, rest5)
              else
                match parseItems fuel p.2 with
                | none => none
                | some (siblings, rest5) => some (.mk ⟨p.1⟩ [] :: siblings, rest5)
      else none

/-- Model of graphql-tools `parseSelectionSet`: parse a `{ … }` string into
a selection-set node, `none` on a syntax error. -/
def parseSelectionSet (s : String) : Option SelectionSetNode :=
  match s.data with
  | '{' :: rest =>
      match parseItems (s.data.length + 1) rest with
      | some (fs, []) => some fs
      | _ => none
  | _ => none

/-- A document node as fed to `normalizeSelectionSetParam`: graphql-tools
only accepts one whose printed form is again a selection set, i.e. a document
holding a single anonymous operation; modelled by that operation's selection
set. -/
structure SelectionDocument where
  selectionSet : SelectionSetNode

/-- Model of graphql-js `print` on such a document. -/
def printDocument (d : SelectionDocument) : String :=
  printSelectionSet d.selectionSet

/-- The union type `SelectionSetParam`: a parsed selection set, a document
node, or a GraphQL-syntax string. -/
inductive SelectionSetParam : Type where
  | str : String → SelectionSetParam
  | document : SelectionDocument → SelectionSetParam
  | selectionSet : SelectionSetNode → SelectionSetParam

/-- `normalizeSelectionSetParam` (lines 427–435): a string is parsed, a
document node is printed and re-parsed, a selection-set node is returned
as-is. -/
def normalizeSelectionSetParam : SelectionSetParam → Option SelectionSetNode
  | .str s => parseSelectionSet s
  | .document d => parseSelectionSet (printDocument d)
  | .selectionSet ss => some ss

/-- The union type `SelectionSetParamOrFactory`. -/
inductive SelectionSetParamOrFactory : Type where
  | param : SelectionSetParam → SelectionSetParamOrFactory
  | factory : (SelectionSetNode → SelectionSetParam) → SelectionSetParamOrFactory

/-- `normalizeSelectionSetParamOrFactory` (lines 437–448): the returned
`getSelectionSet` evaluates a factory on the subtree first, then normalizes. -/
def normalizeSelectionSetParamOrFactory (selectionSetParamOrFactory : SelectionSetParamOrFactory) :
    SelectionSetNode → Option SelectionSetNode :=
  fun subtree =>
    match selectionSetParamOrFactory with
    | .factory f => normalizeSelectionSetParam (f subtree)
    | .param p => normalizeSelectionSetParam p

/-! ## In-context SDK field callable (`getMesh`, lines 185–251)

For every root field of every source's transformed schema, `getMesh`
synthesizes a callable that delegates into the source, batched through
`batchDelegateToSchema` when `key && argsFromKeys` holds and through a plain
`delegateToSchema` otherwise.  The two delegation library entry points are
external: the callable is modelled down to the dispatch it performs, i.e.
which entry point is invoked with which options. -/

/-- JS truthiness of the `selectionSet` argument: absent and the empty
string are falsy, every other accepted shape is an object or function and
hence truthy. -/
def selectionSetTruthy : Option SelectionSetParamOrFactory → Bool
  | none => false
  | some (.param (.str s)) => s ≠ ""
  | some _ => true

/-- The `commonDelegateOptions` record (lines 210–219). -/
structure CommonDelegateOptions where
  schema : RawSourceOutput
  rootValue : Jsv
  operation : String
  fieldName : String
  returnType : Jsv
  context : Jsv
  transformedSchema : Jsv
  info : Jsv

/-- A `WrapQuery` transform as built by the callable: the one-step path to
the field and the normalized selection-set factory (the result extractor is
the `identical` function, line 450–452, and carries no information). -/
structure WrapQueryTransform where
  path : List String
  selectionSetFactory : SelectionSetNode → Option SelectionSetNode

/-- The options handed to `batchDelegateToSchema` (lines 221–232). -/
structure BatchDelegateOptions where
  common : CommonDelegateOptions
  key : String
  argsFromKeys : List String → Jsv
  valuesFromResults : Option (Jsv → Jsv)
  transforms : Option (List WrapQueryTransform)

/-- The options handed to `delegateToSchema` (lines 235–244). -/
structure SingleDelegateOptions where
  common : CommonDelegateOptions
  args : Jsv
  transforms : Option (List WrapQueryTransform)

/-- The dispatch performed by one in-context SDK call: either one batched
delegated call, or one plain delegated call whose awaited result is
post-processed by `valuesFromResults` when that is supplied (lines 245–249). -/
inductive DelegationDispatch : Type where
  | batched : BatchDelegateOptions → DelegationDispatch
  | single : SingleDelegateOptions → Option (Jsv → Jsv) → DelegationDispatch

/-- The `commonDelegateOptions` value built by the callable. -/
def commonDelegateOptionsOf (rawSource : RawSourceOutput) (transformedSchema : Jsv)
    (operationType : String) (fieldName : String) (returnType : Jsv)
    (root : Jsv) (context : Jsv) (info : Jsv) : CommonDelegateOptions :=
  { schema := rawSource
    rootValue := root
    operation := operationType
    fieldName := fieldName
    returnType := returnType
    context := context
    transformedSchema := transformedSchema
    info := info }

/-- The `transforms` option built by the callable: when `selectionSet` is
truthy, one `WrapQuery` at the field's path with the normalized selection-set
factory; otherwise the option stays unset. -/
def wrapQueryTransformsOf (fieldName : String)
    (selectionSet : Option SelectionSetParamOrFactory) : Option (List WrapQueryTransform) :=
  match selectionSet with
  | some sel =>
      if selectionSetTruthy (some sel) then
        some [{ path := [fieldName]
                selectionSetFactory := normalizeSelectionSetParamOrFactory sel }]
      else none
  | none => none

/-- The callable synthesized for one root field (lines 185–251), modelled to
the dispatch it performs.  `key` and `argsFromKeys` are the optional call
arguments; the guard is the JS-truthy test `key && argsFromKeys`, under which
an empty-string `key` is falsy. -/
def inContextSdkFieldCall (rawSource : RawSourceOutput) (transformedSchema : Jsv)
    (operationType : String) (fieldName : String) (returnType : Jsv)
    (root : Jsv) (args : Jsv) (context : Jsv) (info : Jsv)
    (selectionSet : Option SelectionSetParamOrFactory)
    (key : Option String)
    (argsFromKeys : Option (List String → Jsv))
    (valuesFromResults : Option (Jsv → Jsv)) : DelegationDispatch :=
  let commonDelegateOptions := commonDelegateOptionsOf rawSource transformedSchema
    operationType fieldName returnType root context info
  let transforms := wrapQueryTransformsOf fieldName selectionSet
  let singleDelegateOptions : SingleDelegateOptions :=
    { common := commonDelegateOptions, args := args, transforms := transforms }
  match key, argsFromKeys with
  | some k, some argsFromKeysFn =>
      if k = "" then
        .single singleDelegateOptions valuesFromResults
      else
        .batched
          { common := commonDelegateOptions
            key := k
            argsFromKeys := argsFromKeysFn
            valuesFromResults := valuesFromResults
            transforms := transforms }
  | some _, none => .single singleDelegateOptions valuesFromResults
  | none, _ => .single singleDelegateOptions valuesFromResults

/-! ## Live query invalidation wiring (`getMesh`, lines 128–150) -/

/-- One configured entry of `options.liveQueryInvalidations`. -/
structure LiveQueryInvalidation where
  field : String
  invalidate : List String

/-- The `resolverData.info` slice the subscriber reads: the parent type
object (observed through its `name`; as an object it is truthy whenever
present) and the field name (a string, falsy when empty). -/
structure ResolverInfo where
  parentType : Option String
  fieldName : Option String

/-- The `resolverData` carried by a `resolverDone` event: the `info` slice
plus the remaining payload (root, args, context, …) that invalidation
factories may read. -/
structure ResolverData where
  info : Option ResolverInfo
  payload : Jsv

/-- Reading a property of a modelled JS object. -/
def jsGet (v : Jsv) (k : String) : Jsv :=
  match v with
  | .obj kvs => readOpt (kvs.lookup k)
  | _ => .undefined

/-- An invalidation factory: a pure function of the resolver data merged
with the result (`{...resolverData, result}`), producing one concrete
invalidation path string. -/
abbrev InvalidationFactory := ResolverData → Jsv → String

/-- Building `liveQueryInvalidationFactoryMap` (lines 130–136): each
configured entry's templates are compiled by the external
`getInterpolatedStringFactory` (passed in as `interp`) and stored under the
entry's `field` key.  `Map.set` lets a later entry for the same field win,
so the association list is reversed for first-match lookup. -/
def buildInvalidationFactoryMap (interp : String → InvalidationFactory)
    (liveQueryInvalidations : List LiveQueryInvalidation) :
    List (String × List InvalidationFactory) :=
  (liveQueryInvalidations.map fun lqi => (lqi.field, lqi.invalidate.map interp)).reverse

/-- The `resolverDone` subscriber (lines 139–150): when the event's
`resolverData` carries a truthy `info.parentType` and `info.fieldName`,
compute `parentType.name + "." + fieldName`; when that path is a key of the
factory map, evaluate every factory under it on the merged object and
invalidate the results as one batch (`some batch`); otherwise no invalidation
happens (`none`). -/
def resolverDoneSubscriber (liveQueryInvalidationFactoryMap : List (String × List InvalidationFactory))
    (result : Jsv) (resolverData : Option ResolverData) : Option (List String) :=
  match resolverData with
  | none => none
  | some rd =>
      match rd.info with
      | none => none
      | some info =>
          match info.parentType, info.fieldName with
          | some parentTypeName, some fieldName =>
              if fieldName = "" then none
              else
                let path := parentTypeName ++ "." ++ fieldName
                match liveQueryInvalidationFactoryMap.lookup path with
                | some invalidationPathFactories =>
                    some (invalidationPathFactories.map fun f => f rd result)
                | none => none
          | _, _ => none

/-! ## SDK requester (`localRequester` and `GraphQLMeshSdkError`, lines 363–411) -/

/-- An execution result as the requester inspects it: for each of the two
keys, `none` means the key is absent, `some none` a key holding `undefined`,
and `some (some v)` a proper value; an errors array may be empty (and is then
still truthy). -/
structure ExecutionResultShape where
  data : Option Jsv
  errors : Option (Option (List Jsv))

/-- JS truthiness of the `errors` property: any array (even empty) is
truthy; an absent or `undefined` property is falsy. -/
def errorsTruthy : Option (Option (List Jsv)) → Bool
  | some (some _) => true
  | _ => false

/-- Outcome of one `localRequester` call: the returned data, a thrown
`GraphQLMeshSdkError` carrying the errors / document / variables / data it
was constructed with (lines 363–375), or the thrown
`new Error("Not implemented")`. -/
inductive RequesterOutcome : Type where
  | success : Jsv → RequesterOutcome
  | sdkError : Option (List Jsv) → Jsv → Jsv → Jsv → RequesterOutcome
  | notImplemented : RequesterOutcome

/-- `localRequester` (lines 377–411) from the execution result the facade
returned: keyed on `'data' in result || 'errors' in result`, then on the
truthiness test `result.data && !result.errors`. -/
def localRequester (document : Jsv) (variableValues : Jsv)
    (executionResult : ExecutionResultShape) : RequesterOutcome :=
  if executionResult.data.isSome || executionResult.errors.isSome then
    if (readOpt executionResult.data).truthy && !errorsTruthy executionResult.errors then
      .success (readOpt executionResult.data)
    else
      .sdkError
        (match executionResult.errors with
         | some (some es) => some es
         | _ => none)
        document variableValues (readOpt executionResult.data)
  else
    .notImplemented

/-! ## Mesh execution facade (`meshExecute`, lines 281–326)

`getDocumentNodeAndSDL` (external, `@graphql-mesh/utils`) parses an SDL
string into a document and passes a document node through; graphql-js
documents and their parser are modelled on a canonical fragment holding only
operation headers (`"query Name"`, joined by `";"`), which is all the
operation-name derivation reads. -/

/-- An operation definition: its operation type and optional name. -/
structure OperationDefinition where
  operation : String
  name : Option String

/-- A parsed document: its operation definitions. -/
structure DocumentNodeModel where
  definitions : List OperationDefinition

/-- The `GraphQLOperation` input union: an SDL string or a document node. -/
inductive GraphQLOperationInput : Type where
  | sdl : String → GraphQLOperationInput
  | document : DocumentNodeModel → GraphQLOperationInput

/-- Model printing of one operation header. -/
def printOperationDefinition (op : OperationDefinition) : String :=
  match op.name with
  | some n => op.operation ++ " " ++ n
  | none => op.operation

/-- Model printing of a document. -/
def printDocumentModel (d : DocumentNodeModel) : String :=
  String.intercalate ";" (d.definitions.map printOperationDefinition)

/-- Model parsing of one operation header. -/
def parseOperationDefinition (s : String) : Option OperationDefinition :=
  let isOperationType : String → Bool := fun op =>
    op = "query" || op = "mutation" || op = "subscription"
  match s.splitOn " " with
  | [op] => if isOperationType op then some ⟨op, none⟩ else none
  | [op, n] => if isOperationType op && n ≠ "" then some ⟨op, some n⟩ else none
  | _ => none

/-- Model of the graphql-js parser on the canonical document fragment
(`none` = syntax error). -/
def parseDocumentModel (s : String) : Option DocumentNodeModel :=
  let parts := s.splitOn ";"
  if parts.any (fun p => (parseOperationDefinition p).isNone) then none
  else some ⟨parts.filterMap parseOperationDefinition⟩

/-- Model of graphql-js `getOperationAST(document)` as called with no
operation name: the document's operation definition when it is the sole one,
otherwise `null`. -/
def getOperationAST (document : DocumentNodeModel) : Option OperationDefinition :=
  match document.definitions with
  | [op] => some op
  | _ => none

/-- The `ExecutionArgs` handed to the live-query-aware executor
(lines 295–302). -/
structure ExecutionParams where
  document : DocumentNodeModel
  contextValue : Jsv
  rootValue : Jsv
  variableValues : Jsv
  schema : Jsv
  operationName : Option String

/-- `meshExecute` (lines 281–326) up to the hand-off to the live-query
executor: normalize `documentOrSDL` via `getDocumentNodeAndSDL`; when
`operationName` is falsy (absent or empty), derive it from
`getOperationAST(document).name?.value` — `getOperationAST` returning `null`
there crashes with a TypeError, modelled by `.error`.  Returns the
`ExecutionArgs` passed on. -/
def meshExecute (unifiedSchema : Jsv) (documentOrSDL : GraphQLOperationInput)
    (variableValues : Jsv) (contextValue : Jsv) (rootValue : Jsv)
    (operationName : Option String) : Except String ExecutionParams :=
  let documentAndSDL : Option (DocumentNodeModel × String) :=
    match documentOrSDL with
    | .sdl s => (parseDocumentModel s).map fun d => (d, s)
    | .document d => some (d, printDocumentModel d)
  match documentAndSDL with
  | none => .error "GraphQLError: syntax error"
  | some (document, _sdl) =>
      let operationNameTruthy : Bool :=
        match operationName with
        | some n => n ≠ ""
        | none => false
      if operationNameTruthy then
        .ok { document := document
              contextValue := contextValue
              rootValue := rootValue
              variableValues := variableValues
              schema := unifiedSchema
              operationName := operationName }
      else
        match getOperationAST document with
        | none => .error "TypeError: operationAst is null"
        | some operationAst =>
            .ok { document := document
                  contextValue := contextValue
                  rootValue := rootValue
                  variableValues := variableValues
                  schema := unifiedSchema
                  operationName := operationAst.name }

/-! ## Auxiliary executable predicates and measures -/

/-- Whether the first list of characters is an initial segment of the
second. -/
def hasPrefixCL : List Char → List Char → Bool
  | [], _ => true
  | _ :: _, [] => false
  | p :: ps, c :: cs => p == c && hasPrefixCL ps cs

/-- Whether `pat` occurs contiguously inside the second list. -/
def containsSub (pat : List Char) : List Char → Bool
  | [] => hasPrefixCL pat []
  | c :: rest => hasPrefixCL pat (c :: rest) || containsSub pat rest

/-- Whether a dispatch is the batched one. -/
def DelegationDispatch.isBatched : DelegationDispatch → Bool
  | .batched _ => true
  | .single _ _ => false

mutual

/-- Parser fuel sufficient for one field. -/
def neededFuelField : FieldNode → Nat
  | .mk _ sub => neededFuelItems sub

/-- Parser fuel sufficient for a selection list (with its closing ` }`). -/
def neededFuelItems : List FieldNode → Nat
  | [] => 1
  | f :: fs => 1 + max (neededFuelField f) (neededFuelItems fs)

end

/-! ## Concrete fixtures used to evaluate the model -/

/-- A minimal successful handler result: just a schema. -/
def plainShape : MeshSourceShape :=
  { schema := Jsv.obj [], executor := none, contextVariables := none
    batch := none, contextBuilder := none }

/-- A configured source whose handler throws. -/
def alphaSource : SourceConfig :=
  { name := "alpha", handlerResult := .error "boom", handler := Jsv.obj []
    transforms := [], merge := none }

/-- A configured source whose handler succeeds. -/
def betaSource : SourceConfig :=
  { name := "beta", handlerResult := .ok plainShape, handler := Jsv.obj []
    transforms := [], merge := none }

/-- A second healthy configured source. -/
def gammaSource : SourceConfig :=
  { name := "gamma", handlerResult := .ok plainShape, handler := Jsv.obj []
    transforms := [], merge := none }

/-- A registered raw source. -/
def rawFixture : RawSourceOutput :=
  { name := "src", schema := Jsv.obj [], executor := none, transforms := []
    contextVariables := [], handler := Jsv.obj [], batch := Jsv.bool true
    merge := none }

/-- The compiled form of the invalidation template `id:{args.id}` — a model
of what `getInterpolatedStringFactory` produces for it: interpolate the
event's `args.id` into the template. -/
def interpArgsId : String → InvalidationFactory :=
  fun _template rd _result =>
    "id:" ++ (match jsGet (jsGet rd.payload "args") "id" with
              | .str s => s
              | _ => "")

/-- Resolver data of a completed `Type.field` resolution with
`args.id = "42"`. -/
def resolverDataFixture : ResolverData :=
  { info := some { parentType := some "Type", fieldName := some "field" }
    payload := Jsv.obj [("args", Jsv.obj [("id", Jsv.str "42")])] }

/-! ## Theorems -/

/-- Auxiliary: once a driver exists, `getDriver` is a pure read. -/
theorem getDriverCalls_of_some (n : Nat) : ∀ (st : Neo4JHandlerState) (d : Nat),
    st.driver = some d →
    Neo4JHandler.getDriverCalls st n = (List.replicate n d, st) := by
  induction n with
  | zero => intro st d h; simp [Neo4JHandler.getDriverCalls]
  | succ n ih =>
      intro st d h
      simp only [Neo4JHandler.getDriverCalls, Neo4JHandler.getDriver, h]
      rw [ih st d h]
      simp [List.replicate]

/-- C9: on one `Neo4JHandler` instance, the driver is created lazily on the
first `getDriver` call (the constructor creates none), every later call
returns that same driver, and the `destroy` release handler is subscribed at
most once over any call sequence: after `n` calls exactly `min n 1` drivers
exist and `min n 1` subscriptions were made, and all `n` calls returned
driver `0`. -/
theorem neo4j_getDriver_lazy_singleton (n : Nat) :
    Neo4JHandler.initState.driver = none ∧
    (Neo4JHandler.getDriverCalls Neo4JHandler.initState n).1 = List.replicate n 0 ∧
    (Neo4JHandler.getDriverCalls Neo4JHandler.initState n).2.driversCreated = min n 1 ∧
    (Neo4JHandler.getDriverCalls Neo4JHandler.initState n).2.destroySubscriptions = min n 1 := by
  refine ⟨rfl, ?_⟩
  cases n with
  | zero => simp [Neo4JHandler.getDriverCalls, Neo4JHandler.initState]
  | succ n =>
      have h := getDriverCalls_of_some n
        ({ driver := some 0, driversCreated := 1, destroySubscriptions := 1 }) 0 rfl
      simp only [Neo4JHandler.getDriverCalls, Neo4JHandler.getDriver, Neo4JHandler.initState]
      rw [h]
      refine ⟨by simp [List.replicate], ?_, ?_⟩ <;> simp

/-- C8 counterexample: a successful `Neo4JHandler.getMeshSource()` result
has no `executor` field (the claim asserts one is present). -/
theorem neo4j_getMeshSource_no_executor :
    ((Neo4JHandler.getMeshSource
        { url := "bolt://localhost", username := "neo4j", password := "pw"
          database := none, alwaysIncludeRelationships := false
          cacheIntrospection := false }
        none (fun _ => "type Movie") (fun _ => Jsv.obj [])).1).executor = none := rfl

/-- C8 (amended): every successful `Neo4JHandler.getMeshSource()` result
carries a `schema` field (built by `makeAugmentedSchema`) and a
`contextBuilder` field, but neither an `executor` nor a `batch` nor a
`contextVariables` field. -/
theorem neo4j_getMeshSource_shape (config : Neo4JConfig)
    (cachedTypeDefs : Option String)
    (inferSchema : Neo4JConfig → String)
    (makeAugmentedSchema : String → Jsv) :
    (∃ typeDefs,
        ((Neo4JHandler.getMeshSource config cachedTypeDefs inferSchema makeAugmentedSchema).1).schema =
          makeAugmentedSchema typeDefs) ∧
    ((Neo4JHandler.getMeshSource config cachedTypeDefs inferSchema makeAugmentedSchema).1).contextBuilder.isSome = true ∧
    ((Neo4JHandler.getMeshSource config cachedTypeDefs inferSchema makeAugmentedSchema).1).executor = none ∧
    ((Neo4JHandler.getMeshSource config cachedTypeDefs inferSchema makeAugmentedSchema).1).batch = none ∧
    ((Neo4JHandler.getMeshSource config cachedTypeDefs inferSchema makeAugmentedSchema).1).contextVariables = none := by
  refine ⟨⟨_, rfl⟩, rfl, rfl, rfl, rfl⟩

/-- C10: when a handler's `getMeshSource` result has no `batch` key, the raw
source is registered with `batch` set to `true`; when the key is present,
the handler-provided value is kept unchanged. -/
theorem rawSource_batch_default (applySchemaTransforms : Jsv → List Jsv → Jsv)
    (apiSource : SourceConfig) (source : MeshSourceShape)
    (h : apiSource.handlerResult = .ok source) :
    ∃ raw, processSource applySchemaTransforms apiSource = .ok raw ∧
      (source.batch = none → raw.batch = Jsv.bool true) ∧
      (∀ b, source.batch = some b → raw.batch = b) := by
  unfold processSource
  rw [h]
  refine ⟨_, rfl, ?_, ?_⟩
  · intro hb; simp [hb]
  · intro b hb; simp [hb]

/-- C10 witness: a handler result without a `batch` key is registered with
`batch = true`. -/
theorem rawSource_batch_default_witness :
    ∃ raw, processSource (fun s _ => s)
        { name := "src", handlerResult := .ok
            { schema := Jsv.obj [], executor := none, contextVariables := none
              batch := none, contextBuilder := none }
          handler := Jsv.obj [], transforms := [], merge := none } = .ok raw ∧
      raw.batch = Jsv.bool true := by
  obtain ⟨raw, h1, h2, _⟩ := rawSource_batch_default (fun s _ => s)
    { name := "src", handlerResult := .ok
        { schema := Jsv.obj [], executor := none, contextVariables := none
          batch := none, contextBuilder := none }
      handler := Jsv.obj [], transforms := [], merge := none }
    { schema := Jsv.obj [], executor := none, contextVariables := none
      batch := none, contextBuilder := none } rfl
  exact ⟨raw, h1, h2 rfl⟩

/-- Auxiliary: a failing handler makes `processSource` fail with the same
exception. -/
theorem processSource_error (applySchemaTransforms : Jsv → List Jsv → Jsv)
    (s : SourceConfig) (e : String) (h : s.handlerResult = .error e) :
    processSource applySchemaTransforms s = .error e := by
  unfold processSource; rw [h]

/-- Auxiliary: a successful handler makes `processSource` succeed, keeping
the source's name. -/
theorem processSource_ok_name (applySchemaTransforms : Jsv → List Jsv → Jsv)
    (s : SourceConfig) (shape : MeshSourceShape) (h : s.handlerResult = .ok shape) :
    ∃ raw, processSource applySchemaTransforms s = .ok raw ∧ raw.name = s.name := by
  unfold processSource; rw [h]; exact ⟨_, rfl, rfl⟩

/-- Auxiliary: when every handler succeeds, the registry succeeds and keeps
one raw source per configured source, names preserved in order. -/
theorem registry_all_ok (applySchemaTransforms : Jsv → List Jsv → Jsv)
    (sources : List SourceConfig)
    (h : ∀ s ∈ sources, ∃ shape, s.handlerResult = .ok shape) :
    ∃ raws, (getMeshRegistry applySchemaTransforms sources).result = .ok raws ∧
      raws.map (·.name) = sources.map (·.name) := by
  have hok : ∀ s ∈ sources, ∃ raw, processSource applySchemaTransforms s = .ok raw ∧
      raw.name = s.name := by
    intro s hs
    obtain ⟨shape, hshape⟩ := h s hs
    exact processSource_ok_name applySchemaTransforms s shape hshape
  have hany : ((sources.map fun s => (s.name, processSource applySchemaTransforms s)).any
      (fun p => match p.2 with | .error _ => true | .ok _ => false)) = false := by
    rw [List.any_eq_false]
    intro p hp
    obtain ⟨s, hs, rfl⟩ := List.mem_map.mp hp
    obtain ⟨raw, hraw, _⟩ := hok s hs
    simp [hraw]
  have hnames : ∀ (l : List SourceConfig),
      (∀ s ∈ l, ∃ raw, processSource applySchemaTransforms s = .ok raw ∧ raw.name = s.name) →
      (((l.map fun s => (s.name, processSource applySchemaTransforms s)).filterMap
          fun p => p.2.toOption).map (·.name)) = l.map (·.name) := by
    intro l
    induction l with
    | nil => intro _; rfl
    | cons s rest ih =>
        intro hl
        obtain ⟨raw, hraw, hname⟩ := hl s (by simp)
        have ih' := ih fun t ht => hl t (by simp [ht])
        simp only [Except.toOption] at ih'
        simp only [List.map_cons, List.filterMap_cons, hraw, Except.toOption]
        rw [hname, ih']
  refine ⟨_, ?_, hnames sources hok⟩
  simp only [getMeshRegistry, hany]
  rfl

/-- Auxiliary: one failing handler makes the whole registry fail with the
fixed-message error. -/
theorem registry_any_failed (applySchemaTransforms : Jsv → List Jsv → Jsv)
    (sources : List SourceConfig)
    (h : ∃ s ∈ sources, ∃ e, s.handlerResult = .error e) :
    (getMeshRegistry applySchemaTransforms sources).result = .error schemasFailedMessage := by
  obtain ⟨s, hs, e, he⟩ := h
  have hany : ((sources.map fun t => (t.name, processSource applySchemaTransforms t)).any
      (fun p => match p.2 with | .error _ => true | .ok _ => false)) = true := by
    rw [List.any_eq_true]
    refine ⟨(s.name, processSource applySchemaTransforms s), List.mem_map.mpr ⟨s, hs, rfl⟩, ?_⟩
    rw [processSource_error applySchemaTransforms s e he]
  simp only [getMeshRegistry, hany]
  rfl

/-- C2 counterexample: with a failing source named `alpha` (and a healthy
sibling `beta`), the registry fails with the fixed-message error, and the
thrown error's message does not name the failing source `alpha` anywhere. -/
theorem getMesh_error_not_naming_failed_source :
    (getMeshRegistry (fun s _ => s) [alphaSource, betaSource]).result =
      .error schemasFailedMessage ∧
    (getMeshRegistry (fun s _ => s) [alphaSource, betaSource]).invoked = ["alpha", "beta"] ∧
    containsSub "alpha".data schemasFailedMessage.data = false := by
  refine ⟨rfl, rfl, by decide⟩

/-- C2 (amended): a failure in one source's `getMeshSource` does not abort
sibling sources — every configured source is processed behind the settle-all
barrier, and each failure is logged with the failing source's name — and if
at least one source failed, the registry fails with one error whose message
is a fixed generic string (which does not name the failing sources); if no
source failed, construction proceeds with one raw source per configured
source. -/
theorem getMeshRegistry_settleAll (applySchemaTransforms : Jsv → List Jsv → Jsv)
    (sources : List SourceConfig) :
    (getMeshRegistry applySchemaTransforms sources).invoked = sources.map (·.name) ∧
    (∀ s ∈ sources, ∀ e, s.handlerResult = .error e →
      (s.name, "Failed to generate schema: " ++ e) ∈
        (getMeshRegistry applySchemaTransforms sources).logs) ∧
    ((∃ s ∈ sources, ∃ e, s.handlerResult = .error e) →
      (getMeshRegistry applySchemaTransforms sources).result = .error schemasFailedMessage) ∧
    ((∀ s ∈ sources, ∃ shape, s.handlerResult = .ok shape) →
      ∃ raws, (getMeshRegistry applySchemaTransforms sources).result = .ok raws ∧
        raws.map (·.name) = sources.map (·.name)) := by
  refine ⟨rfl, ?_, registry_any_failed applySchemaTransforms sources,
    registry_all_ok applySchemaTransforms sources⟩
  intro s hs e he
  simp only [getMeshRegistry]
  refine List.mem_filterMap.mpr ⟨(s.name, processSource applySchemaTransforms s),
    List.mem_map.mpr ⟨s, hs, rfl⟩, ?_⟩
  rw [processSource_error applySchemaTransforms s e he]

/-- C2 witness: on a concrete configuration with failing source `alpha` and
healthy source `beta`, both sources are processed, the failure is logged
under `alpha`, and the registry fails with the fixed-message error. -/
theorem getMeshRegistry_settleAll_witness :
    (getMeshRegistry (fun s _ => s) [alphaSource, betaSource]).invoked = ["alpha", "beta"] ∧
    ("alpha", "Failed to generate schema: boom") ∈
      (getMeshRegistry (fun s _ => s) [alphaSource, betaSource]).logs ∧
    (getMeshRegistry (fun s _ => s) [alphaSource, betaSource]).result =
      .error schemasFailedMessage := by
  have h := getMeshRegistry_settleAll (fun s _ => s) [alphaSource, betaSource]
  refine ⟨h.1, ?_, ?_⟩
  · exact h.2.1 alphaSource (List.mem_cons_self alphaSource [betaSource]) "boom" rfl
  · exact h.2.2.1 ⟨alphaSource, List.mem_cons_self alphaSource [betaSource], "boom", rfl⟩

/-- C1 counterexample: `key` and `argsFromKeys` are both supplied, yet with
the (falsy) empty-string key the call is dispatched as a plain
`delegateToSchema` call, not as a batched one as the claim states. -/
theorem inContextSdk_emptyKey_single :
    (inContextSdkFieldCall rawFixture (Jsv.obj []) "query" "user" Jsv.undefined
      Jsv.undefined (Jsv.obj [("id", Jsv.str "1")]) Jsv.undefined Jsv.undefined
      none (some "") (some fun _ => Jsv.num 1) none).isBatched = false := rfl

/-- C1 (amended): an in-context SDK call is dispatched through
`batchDelegateToSchema` — with the collected-keys argument builder
`argsFromKeys` and the redistribution function `valuesFromResults` in its
options — exactly when `key` is supplied as a JS-truthy (non-empty) string
and `argsFromKeys` is supplied; when `key` or `argsFromKeys` is missing (or
`key` is the falsy empty string) the call is dispatched through a plain
`delegateToSchema` with `args` passed directly (and `valuesFromResults`, when
supplied, applied to the single result). -/
theorem inContextSdk_dispatch (rawSource : RawSourceOutput) (transformedSchema : Jsv)
    (operationType fieldName : String) (returnType root args context info : Jsv)
    (selectionSet : Option SelectionSetParamOrFactory)
    (key : Option String) (argsFromKeys : Option (List String → Jsv))
    (valuesFromResults : Option (Jsv → Jsv)) :
    (∀ k f, key = some k → k ≠ "" → argsFromKeys = some f →
      inContextSdkFieldCall rawSource transformedSchema operationType fieldName
          returnType root args context info selectionSet key argsFromKeys valuesFromResults =
        .batched
          { common := commonDelegateOptionsOf rawSource transformedSchema
              operationType fieldName returnType root context info
            key := k
            argsFromKeys := f
            valuesFromResults := valuesFromResults
            transforms := wrapQueryTransformsOf fieldName selectionSet }) ∧
    (key = none ∨ argsFromKeys = none ∨ key = some "" →
      inContextSdkFieldCall rawSource transformedSchema operationType fieldName
          returnType root args context info selectionSet key argsFromKeys valuesFromResults =
        .single
          { common := commonDelegateOptionsOf rawSource transformedSchema
              operationType fieldName returnType root context info
            args := args
            transforms := wrapQueryTransformsOf fieldName selectionSet }
          valuesFromResults) := by
  constructor
  · rintro k f rfl hk rfl
    simp [inContextSdkFieldCall, hk]
  · rintro (rfl | hA | rfl)
    · cases argsFromKeys <;> simp [inContextSdkFieldCall]
    · cases key <;> simp [inContextSdkFieldCall, hA]
    · cases argsFromKeys <;> simp [inContextSdkFieldCall]

/-- C1 witness: with a non-empty key and an `argsFromKeys` both supplied,
the concrete call is dispatched batched, carrying both functions in its
options. -/
theorem inContextSdk_dispatch_witness :
    inContextSdkFieldCall rawFixture (Jsv.obj []) "query" "user" Jsv.undefined
        Jsv.undefined (Jsv.obj []) Jsv.undefined Jsv.undefined none (some "k1")
        (some fun keys => Jsv.arr (keys.map Jsv.str)) none =
      .batched
        { common := commonDelegateOptionsOf rawFixture (Jsv.obj []) "query" "user"
            Jsv.undefined Jsv.undefined Jsv.undefined Jsv.undefined
          key := "k1"
          argsFromKeys := fun keys => Jsv.arr (keys.map Jsv.str)
          valuesFromResults := none
          transforms := wrapQueryTransformsOf "user" none } :=
  (inContextSdk_dispatch rawFixture (Jsv.obj []) "query" "user" Jsv.undefined
      Jsv.undefined (Jsv.obj []) Jsv.undefined Jsv.undefined none (some "k1")
      (some fun keys => Jsv.arr (keys.map Jsv.str)) none).1
    "k1" (fun keys => Jsv.arr (keys.map Jsv.str)) rfl (by decide) rfl

/-- C3: for every execution result handed back to the SDK requester — with
`contains data` / `contains errors` read as the code's JS-truthiness tests —
truthy data with falsy errors returns exactly that data; a truthy errors
value (an array, with or without partial data) throws the one
`GraphQLMeshSdkError` bundling those errors with the document, the
variables and the (partial) data; a result with neither a `data` key nor an
`errors` key fails immediately with the unconditional
`Error("Not implemented")`. -/
theorem localRequester_result_cases (document vars : Jsv) (r : ExecutionResultShape) :
    ((readOpt r.data).truthy = true → errorsTruthy r.errors = false →
      localRequester document vars r = .success (readOpt r.data)) ∧
    (∀ es, r.errors = some (some es) →
      localRequester document vars r = .sdkError (some es) document vars (readOpt r.data)) ∧
    (r.data = none → r.errors = none → localRequester document vars r = .notImplemented) := by
  obtain ⟨d, e⟩ := r
  refine ⟨?_, ?_, ?_⟩
  · intro h1 h2
    cases d with
    | none => simp [readOpt, Jsv.truthy] at h1
    | some v => simp_all [localRequester, readOpt]
  · intro es he
    simp only at he
    subst he
    cases d <;> simp [localRequester, errorsTruthy, readOpt]
  · intro h1 h2
    simp only at h1 h2
    subst h1; subst h2
    simp [localRequester]

/-- C3 witness: `{data: {foo: 1}}` returns the data; `{data: null,
errors: [E]}` throws the aggregate error wrapping exactly `[E]` with the
document, variables and `null` data; `{}` (neither key) fails with the
unimplemented-path error. -/
theorem localRequester_result_cases_witness :
    localRequester (Jsv.str "doc") (Jsv.obj [])
        { data := some (Jsv.obj [("foo", Jsv.num 1)]), errors := none } =
      .success (Jsv.obj [("foo", Jsv.num 1)]) ∧
    localRequester (Jsv.str "doc") (Jsv.obj [])
        { data := some Jsv.null, errors := some (some [Jsv.str "E"]) } =
      .sdkError (some [Jsv.str "E"]) (Jsv.str "doc") (Jsv.obj []) Jsv.null ∧
    localRequester (Jsv.str "doc") (Jsv.obj []) { data := none, errors := none } =
      .notImplemented :=
  ⟨(localRequester_result_cases (Jsv.str "doc") (Jsv.obj [])
      { data := some (Jsv.obj [("foo", Jsv.num 1)]), errors := none }).1 rfl rfl,
   (localRequester_result_cases (Jsv.str "doc") (Jsv.obj [])
      { data := some Jsv.null, errors := some (some [Jsv.str "E"]) }).2.1
     [Jsv.str "E"] rfl,
   (localRequester_result_cases (Jsv.str "doc") (Jsv.obj [])
      { data := none, errors := none }).2.2 rfl rfl⟩

/-- C4: on a `resolverDone` event whose resolver data carries a parent type
and a (non-empty) field name, the subscriber computes
`parentType.name + "." + fieldName` and, exactly when that path is a key of
the invalidation-factory map, evaluates every factory under the key on the
merged resolver data and result and invalidates the produced paths as one
batch; for a path not in the map, or events lacking the resolver data, the
info, the parent type or the field name, no invalidation occurs. -/
theorem resolverDone_invalidation (m : List (String × List InvalidationFactory))
    (result : Jsv) (resolverData : Option ResolverData) :
    (∀ rd pt fn, resolverData = some rd → rd.info = some ⟨some pt, some fn⟩ → fn ≠ "" →
      (∀ factories, m.lookup (pt ++ "." ++ fn) = some factories →
        resolverDoneSubscriber m result resolverData =
          some (factories.map fun f => f rd result)) ∧
      (m.lookup (pt ++ "." ++ fn) = none →
        resolverDoneSubscriber m result resolverData = none)) ∧
    (resolverData = none → resolverDoneSubscriber m result resolverData = none) ∧
    (∀ rd, resolverData = some rd → rd.info = none →
      resolverDoneSubscriber m result resolverData = none) ∧
    (∀ rd i, resolverData = some rd → rd.info = some i →
      (i.parentType = none ∨ i.fieldName = none ∨ i.fieldName = some "") →
      resolverDoneSubscriber m result resolverData = none) := by
  refine ⟨?_, ?_, ?_, ?_⟩
  · rintro rd pt fn rfl hinfo hfn
    constructor
    · intro factories hl
      simp [resolverDoneSubscriber, hinfo, hfn, hl]
    · intro hl
      simp [resolverDoneSubscriber, hinfo, hfn, hl]
  · rintro rfl
    rfl
  · rintro rd rfl hinfo
    simp [resolverDoneSubscriber, hinfo]
  · rintro rd i rfl hinfo hmiss
    obtain ⟨pt, fn⟩ := i
    rcases hmiss with h | h | h
    · simp only at h; subst h
      cases fn <;> simp [resolverDoneSubscriber, hinfo]
    · simp only at h; subst h
      cases pt <;> simp [resolverDoneSubscriber, hinfo]
    · simp only at h; subst h
      cases pt <;> simp [resolverDoneSubscriber, hinfo]

/-- C4 witness: with the rule `Type.field ↦ id:{args.id}` configured, a
completed `Type.field` resolution with `args.id = "42"` invalidates exactly
the one identifier `id:42`. -/
theorem resolverDone_invalidation_witness :
    resolverDoneSubscriber
        (buildInvalidationFactoryMap interpArgsId
          [{ field := "Type.field", invalidate := ["id:{args.id}"] }])
        (Jsv.num 7) (some resolverDataFixture) = some ["id:42"] := by
  have h := ((resolverDone_invalidation
      (buildInvalidationFactoryMap interpArgsId
        [{ field := "Type.field", invalidate := ["id:{args.id}"] }])
      (Jsv.num 7) (some resolverDataFixture)).1 resolverDataFixture
      "Type" "field" rfl rfl (by decide)).1
    [interpArgsId "id:{args.id}"] rfl
  simpa [interpArgsId, jsGet, readOpt, resolverDataFixture] using h

/-- C6 counterexample: an explicitly given empty-string `operationName` is
falsy for the `if (!operationName)` re-derivation guard, so it is *not*
passed through unchanged: the executed operation name becomes the derived
`"Q"` instead of the supplied `""`. -/
theorem meshExecute_emptyOperationName_rederived :
    meshExecute (Jsv.obj [])
        (.document { definitions := [{ operation := "query", name := some "Q" }] })
        Jsv.undefined Jsv.undefined Jsv.undefined (some "") =
      .ok { document := { definitions := [{ operation := "query", name := some "Q" }] }
            contextValue := Jsv.undefined, rootValue := Jsv.undefined
            variableValues := Jsv.undefined, schema := Jsv.obj []
            operationName := some "Q" } := rfl

/-- C6 (amended): `meshExecute` normalizes its input to a parsed document —
an SDL string is parsed (a parse failure fails the call), a document node is
used as-is — and an explicitly given *non-empty* `operationName` is passed
through unchanged to execution, while a missing (or empty, hence falsy)
`operationName` is replaced by the name of the document's sole operation
definition before execution. -/
theorem meshExecute_normalization (unifiedSchema variableValues contextValue rootValue : Jsv)
    (operationName : Option String) (d : DocumentNodeModel) (s : String) :
    (∀ n, operationName = some n → n ≠ "" →
      meshExecute unifiedSchema (.document d) variableValues contextValue rootValue
          operationName =
        .ok { document := d, contextValue := contextValue, rootValue := rootValue
              variableValues := variableValues, schema := unifiedSchema
              operationName := some n }) ∧
    (operationName = none ∨ operationName = some "" →
      ∀ op, getOperationAST d = some op →
        meshExecute unifiedSchema (.document d) variableValues contextValue rootValue
            operationName =
          .ok { document := d, contextValue := contextValue, rootValue := rootValue
                variableValues := variableValues, schema := unifiedSchema
                operationName := op.name }) ∧
    (parseDocumentModel s = some d →
      meshExecute unifiedSchema (.sdl s) variableValues contextValue rootValue
          operationName =
        meshExecute unifiedSchema (.document d) variableValues contextValue rootValue
          operationName) ∧
    (parseDocumentModel s = none →
      meshExecute unifiedSchema (.sdl s) variableValues contextValue rootValue
          operationName = .error "GraphQLError: syntax error") := by
  refine ⟨?_, ?_, ?_, ?_⟩
  · rintro n rfl hn
    simp [meshExecute, hn]
  · rintro (rfl | rfl) op hop <;> simp [meshExecute, hop]
  · intro hp
    simp [meshExecute, hp]
  · intro hp
    simp [meshExecute, hp]

/-- C6 witness: with two named operations and explicit `operationName "B"`,
execution receives exactly `"B"`; with one operation and no name, the sole
operation's name `"A"` is inferred. -/
theorem meshExecute_normalization_witness :
    meshExecute (Jsv.obj [])
        (.document { definitions := [{ operation := "query", name := some "A" },
                                     { operation := "query", name := some "B" }] })
        Jsv.undefined Jsv.undefined Jsv.undefined (some "B") =
      .ok { document := { definitions := [{ operation := "query", name := some "A" },
                                          { operation := "query", name := some "B" }] }
            contextValue := Jsv.undefined, rootValue := Jsv.undefined
            variableValues := Jsv.undefined, schema := Jsv.obj []
            operationName := some "B" } ∧
    meshExecute (Jsv.obj [])
        (.document { definitions := [{ operation := "query", name := some "A" }] })
        Jsv.undefined Jsv.undefined Jsv.undefined none =
      .ok { document := { definitions := [{ operation := "query", name := some "A" }] }
            contextValue := Jsv.undefined, rootValue := Jsv.undefined
            variableValues := Jsv.undefined, schema := Jsv.obj []
            operationName := some "A" } := by
  constructor
  · exact (meshExecute_normalization (Jsv.obj []) Jsv.undefined Jsv.undefined Jsv.undefined
      (some "B")
      { definitions := [{ operation := "query", name := some "A" },
                        { operation := "query", name := some "B" }] } "").1
      "B" rfl (by decide)
  · exact (meshExecute_normalization (Jsv.obj []) Jsv.undefined Jsv.undefined Jsv.undefined
      none { definitions := [{ operation := "query", name := some "A" }] } "").2.1
      (Or.inl rfl) { operation := "query", name := some "A" } rfl

/-- C7: when every one of the N configured sources' handlers succeeds (and
the external merger honours its boundary contract of one transformed
sub-schema entry per raw source), `getMesh` succeeds, `rawSources` holds
exactly N entries — one per configured source, with the same name — and the
unified schema's source map carries exactly one entry for each of those N
raw sources. -/
theorem getMesh_healthy_sources (applySchemaTransforms : Jsv → List Jsv → Jsv)
    (merger : List RawSourceOutput → UnifiedSchema) (sources : List SourceConfig)
    (hok : ∀ s ∈ sources, ∃ shape, s.handlerResult = .ok shape)
    (hmerger : ∀ raws : List RawSourceOutput, raws.length = sources.length →
      ∀ i, i < raws.length →
        ((merger raws).sourceMap.filter (fun p => p.1 = i)).length = 1) :
    ∃ inst, (getMesh applySchemaTransforms merger sources).2 = .ok inst ∧
      inst.rawSources.length = sources.length ∧
      inst.rawSources.map (·.name) = sources.map (·.name) ∧
      ∀ i, i < inst.rawSources.length →
        ((inst.unifiedSchema.sourceMap.filter (fun p => p.1 = i)).length = 1) := by
  obtain ⟨raws, hres, hnames⟩ := registry_all_ok applySchemaTransforms sources hok
  have hlen : raws.length = sources.length := by
    have h := congrArg List.length hnames
    simpa using h
  have hall : ((List.range raws.length).all
      (fun i => (((merger raws).sourceMap.filter (fun p => p.1 = i)).length = 1 : Bool))) = true := by
    rw [List.all_eq_true]
    intro i hi
    exact decide_eq_true (hmerger raws hlen i (List.mem_range.mp hi))
  refine ⟨{ rawSources := raws, unifiedSchema := merger raws }, ?_, hlen, hnames,
    fun i hi => hmerger raws hlen i hi⟩
  simp only [getMesh, hres, hall, if_true]

/-- C7 witness: two healthy sources produce a mesh instance with exactly the
two raw sources `beta` and `gamma`. -/
theorem getMesh_healthy_sources_witness :
    ∃ inst, (getMesh (fun s _ => s)
        (fun _ => { schema := Jsv.obj []
                    sourceMap := [(0, Jsv.str "s0"), (1, Jsv.str "s1")] })
        [betaSource, gammaSource]).2 = .ok inst ∧
      inst.rawSources.length = 2 ∧
      inst.rawSources.map (·.name) = ["beta", "gamma"] := by
  obtain ⟨inst, h1, h2, h3, _⟩ := getMesh_healthy_sources (fun s _ => s)
    (fun _ => { schema := Jsv.obj []
                sourceMap := [(0, Jsv.str "s0"), (1, Jsv.str "s1")] })
    [betaSource, gammaSource]
    (by intro s hs
        rcases List.mem_cons.mp hs with rfl | hs'
        · exact ⟨plainShape, rfl⟩
        · rcases List.mem_cons.mp hs' with rfl | hs''
          · exact ⟨plainShape, rfl⟩
          · cases hs'')
    (by intro raws hl i hi
        rw [hl] at hi
        have h2 : i = 0 ∨ i = 1 := by
          simp only [List.length_cons, List.length_nil] at hi
          omega
        rcases h2 with rfl | rfl <;> simp [List.filter])
  exact ⟨inst, h1, h2, h3⟩

/-- Auxiliary: a name character is not a space. -/
theorem isNameChar_not_space {c : Char} (h : isNameChar c = true) : c ≠ ' ' := by
  rintro rfl; exact absurd h (by decide)

/-- Auxiliary: a name character is not an opening brace. -/
theorem isNameChar_not_lb {c : Char} (h : isNameChar c = true) : c ≠ '{' := by
  rintro rfl; exact absurd h (by decide)

/-- Auxiliary: a name character is not a closing brace. -/
theorem isNameChar_not_rb {c : Char} (h : isNameChar c = true) : c ≠ '}' := by
  rintro rfl; exact absurd h (by decide)

/-- Auxiliary: `spanName` consumes exactly a name-character run that is
followed by a space. -/
theorem spanName_all_name (nm : List Char) (t : List Char)
    (h : nm.all isNameChar = true) :
    spanName (nm ++ ' ' :: t) = (nm, ' ' :: t) := by
  induction nm with
  | nil =>
      have h' : isNameChar ' ' = false := by decide
      simp [spanName, h']
  | cons c cs ih =>
      simp only [List.all_cons, Bool.and_eq_true] at h
      simp only [List.cons_append, spanName, h.1, if_true, List.append_eq]
      rw [ih h.2]

/-- Auxiliary: `spanName` stops at the space, stated for any tail starting
with a space. -/
theorem spanName_before_space (nm rest : List Char) (h : nm.all isNameChar = true)
    (hr : ∃ t, rest = ' ' :: t) :
    spanName (nm ++ rest) = (nm, rest) := by
  obtain ⟨t, rfl⟩ := hr
  exact spanName_all_name nm t h

/-- Auxiliary: a printed selection list followed by a space starts with a
space. -/
theorem printItems_append_cons (fs : List FieldNode) (t : List Char) :
    ∃ t0, printItems fs ++ ' ' :: t = ' ' :: t0 := by
  cases fs with
  | nil => exact ⟨t, rfl⟩
  | cons f fs' => exact ⟨_, rfl⟩

/-- Auxiliary: a valid field prints to a list starting with a name
character. -/
theorem printField_cons_of_valid (f : FieldNode) (h : validField f = true) :
    ∃ c cs, printField f = c :: cs ∧ isNameChar c = true := by
  obtain ⟨n, sub⟩ := f
  simp only [validField, Bool.and_eq_true] at h
  have hn := h.1
  simp only [validName, Bool.and_eq_true, decide_eq_true_eq] at hn
  obtain ⟨hne, hall⟩ := hn
  cases hd : n.data with
  | nil => exact absurd hd hne
  | cons c cs' =>
      have hc : isNameChar c = true := by
        rw [hd] at hall
        simp only [List.all_cons, Bool.and_eq_true] at hall
        exact hall.1
      cases sub with
      | nil => exact ⟨c, cs', by simp [printField, hd], hc⟩
      | cons g gs =>
          refine ⟨c, cs' ++ (' ' :: '{' :: (printItems (g :: gs) ++ [' ', '}'])), ?_, hc⟩
          simp [printField, hd]

/-- Auxiliary: after a bare (sub-selection-free) field, the upcoming input
never looks like the start of a sub-selection. -/
theorem printItems_take_two_ne (fs : List FieldNode) (t : List Char)
    (h : validFields fs = true) :
    (printItems fs ++ ' ' :: '}' :: t).take 2 ≠ [' ', '{'] := by
  cases fs with
  | nil => simp [printItems, List.take]
  | cons f fs' =>
      simp only [validFields, Bool.and_eq_true] at h
      obtain ⟨c, cs, hpf, hc⟩ := printField_cons_of_valid f h.1
      simp only [printItems, List.cons_append, hpf]
      intro hEq
      simp only [List.take, List.cons.injEq] at hEq
      exact isNameChar_not_lb hc hEq.2.1

/-- Auxiliary: every selection list needs at least one unit of fuel. -/
theorem neededFuelItems_pos (fs : List FieldNode) : 1 ≤ neededFuelItems fs := by
  cases fs <;> simp [neededFuelItems]

mutual

/-- Auxiliary: the fuel needed for a field is bounded by its printed
length. -/
theorem neededFuelField_le_print : ∀ f : FieldNode,
    neededFuelField f ≤ (printField f).length + 1
  | .mk n [] => by
      simp only [neededFuelField, printField]
      have := neededFuelItems_pos ([] : List FieldNode)
      simp [neededFuelItems]
  | .mk n (g :: gs) => by
      have h := neededFuelItems_le_print (g :: gs)
      simp only [neededFuelField, printField, List.length_append, List.length_cons]
      omega

/-- Auxiliary: the fuel needed for a selection list is bounded by its
printed length. -/
theorem neededFuelItems_le_print : ∀ fs : List FieldNode,
    neededFuelItems fs ≤ (printItems fs).length + 1
  | [] => by simp [neededFuelItems, printItems]
  | f :: fs => by
      have h1 := neededFuelField_le_print f
      have h2 := neededFuelItems_le_print fs
      simp only [neededFuelItems, printItems, List.length_cons, List.length_append]
      omega

end

/-- Auxiliary: the parser inverts the printer on valid selection lists,
given enough fuel. -/
theorem parseItems_print_roundtrip : ∀ fuel fs rest, validFields fs = true →
    neededFuelItems fs ≤ fuel →
    parseItems fuel (printItems fs ++ ' ' :: '}' :: rest) = some (fs, rest) := by
  intro fuel
  induction fuel with
  | zero =>
      intro fs rest _ hfuel
      have := neededFuelItems_pos fs
      omega
  | succ fuel ih =>
      intro fs rest hv hfuel
      cases fs with
      | nil => simp [printItems, parseItems]
      | cons f fs' =>
          obtain ⟨n, sub⟩ := f
          simp only [validFields, validField, Bool.and_eq_true] at hv
          obtain ⟨⟨hvn, hvsub⟩, hvfs'⟩ := hv
          have hvn' := hvn
          simp only [validName, Bool.and_eq_true, decide_eq_true_eq] at hvn'
          obtain ⟨hne, hall⟩ := hvn'
          have hmax : max (neededFuelItems sub) (neededFuelItems fs') ≤ fuel := by
            simp only [neededFuelItems, neededFuelField] at hfuel
            omega
          have hfsub : neededFuelItems sub ≤ fuel :=
            le_trans (le_max_left _ _) hmax
          have hffs' : neededFuelItems fs' ≤ fuel :=
            le_trans (le_max_right _ _) hmax
          obtain ⟨c, cs', hd⟩ : ∃ c cs', n.data = c :: cs' := by
            cases hx : n.data with
            | nil => exact absurd hx hne
            | cons c cs' => exact ⟨c, cs', rfl⟩
          have hc : isNameChar c = true := by
            rw [hd] at hall
            simp only [List.all_cons, Bool.and_eq_true] at hall
            exact hall.1
          cases sub with
          | nil =>
              have hspan : spanName (n.data ++ (printItems fs' ++ ' ' :: '}' :: rest)) =
                  (n.data, printItems fs' ++ ' ' :: '}' :: rest) :=
                spanName_before_space _ _ hall (printItems_append_cons fs' ('}' :: rest))
              have hinput : printItems (FieldNode.mk n [] :: fs') ++ ' ' :: '}' :: rest =
                  ' ' :: c :: (cs' ++ (printItems fs' ++ ' ' :: '}' :: rest)) := by
                simp [printItems, printField, List.append_assoc, hd]
              rw [hd] at hspan
              simp only [List.cons_append] at hspan
              rw [hinput]
              simp only [parseItems, if_pos rfl, if_neg (isNameChar_not_rb hc), hspan]
              simp only [if_neg (List.cons_ne_nil c cs'),
                if_neg (printItems_take_two_ne fs' rest hvfs'),
                ih fs' rest hvfs' hffs']
              rw [← hd]
              simp only [if_true]
          | cons g gs =>
              have hspan : spanName (n.data ++ (' ' :: '{' ::
                  (printItems (g :: gs) ++ ' ' :: '}' ::
                    (printItems fs' ++ ' ' :: '}' :: rest)))) =
                  (n.data, ' ' :: '{' ::
                    (printItems (g :: gs) ++ ' ' :: '}' ::
                      (printItems fs' ++ ' ' :: '}' :: rest))) :=
                spanName_before_space _ _ hall ⟨_, rfl⟩
              have hinput : printItems (FieldNode.mk n (g :: gs) :: fs') ++ ' ' :: '}' :: rest =
                  ' ' :: c :: (cs' ++ (' ' :: '{' ::
                    (printItems (g :: gs) ++ ' ' :: '}' ::
                      (printItems fs' ++ ' ' :: '}' :: rest)))) := by
                simp [printItems, printField, List.append_assoc, hd]
              rw [hd] at hspan
              simp only [List.cons_append] at hspan
              rw [hinput]
              simp only [parseItems, if_pos rfl, if_neg (isNameChar_not_rb hc), hspan]
              simp only [if_neg (List.cons_ne_nil c cs'), List.take, List.drop,
                ih (g :: gs) _ hvsub hfsub, ih fs' rest hvfs' hffs', if_pos rfl]
              rw [← hd]
              simp only [if_true]

/-- Auxiliary: parsing inverts printing on whole selection sets. -/
theorem parseSelectionSet_print (fs : SelectionSetNode) (h : validFields fs = true) :
    parseSelectionSet (printSelectionSet fs) = some fs := by
  have hb := neededFuelItems_le_print fs
  have hfuel : neededFuelItems fs ≤ (printSelectionSet fs).data.length + 1 := by
    simp only [printSelectionSet, List.length_cons, List.length_append]
    omega
  have hr := parseItems_print_roundtrip ((printSelectionSet fs).data.length + 1) fs [] h hfuel
  simp only [printSelectionSet] at hr ⊢
  simp only [parseSelectionSet]
  rw [hr]

/-- C5: a selection set supplied as a raw GraphQL-syntax string, as a parsed
selection-set document denoting the same selection, or as a factory
returning either, is normalized by `normalizeSelectionSetParamOrFactory` to
the identical selection-set value before being applied to the outgoing
request, and normalization is idempotent (normalizing an already-normalized
selection set returns it unchanged). -/
theorem normalizeSelectionSet_equivalence (fs : SelectionSetNode) (subtree : SelectionSetNode)
    (h : validFields fs = true) :
    normalizeSelectionSetParamOrFactory (.param (.str (printSelectionSet fs))) subtree =
      some fs ∧
    normalizeSelectionSetParamOrFactory (.param (.document ⟨fs⟩)) subtree = some fs ∧
    normalizeSelectionSetParamOrFactory (.param (.selectionSet fs)) subtree = some fs ∧
    (∀ f : SelectionSetNode → SelectionSetParam,
      (f subtree = .str (printSelectionSet fs) ∨ f subtree = .document ⟨fs⟩ ∨
        f subtree = .selectionSet fs) →
      normalizeSelectionSetParamOrFactory (.factory f) subtree = some fs) ∧
    (∀ p ss, normalizeSelectionSetParamOrFactory p subtree = some ss →
      normalizeSelectionSetParamOrFactory (.param (.selectionSet ss)) subtree = some ss) := by
  have hp := parseSelectionSet_print fs h
  refine ⟨?_, ?_, rfl, ?_, ?_⟩
  · simpa [normalizeSelectionSetParamOrFactory, normalizeSelectionSetParam] using hp
  · simpa [normalizeSelectionSetParamOrFactory, normalizeSelectionSetParam,
      printDocument] using hp
  · rintro f (hf | hf | hf) <;>
      simp [normalizeSelectionSetParamOrFactory, normalizeSelectionSetParam, hf,
        printDocument, hp]
  · intro p ss _
    rfl

/-- C5 witness: for the concrete selection set `{ a b { c } }`, the string
form, the document form and a factory form all normalize to the same parsed
selection-set value. -/
theorem normalizeSelectionSet_equivalence_witness :
    printSelectionSet [FieldNode.mk "a" [], FieldNode.mk "b" [FieldNode.mk "c" []]] =
      "{ a b { c } }" ∧
    normalizeSelectionSetParamOrFactory
        (.param (.str (printSelectionSet
          [FieldNode.mk "a" [], FieldNode.mk "b" [FieldNode.mk "c" []]]))) [] =
      some [FieldNode.mk "a" [], FieldNode.mk "b" [FieldNode.mk "c" []]] ∧
    normalizeSelectionSetParamOrFactory
        (.param (.document ⟨[FieldNode.mk "a" [], FieldNode.mk "b" [FieldNode.mk "c" []]]⟩))
        [] =
      some [FieldNode.mk "a" [], FieldNode.mk "b" [FieldNode.mk "c" []]] ∧
    normalizeSelectionSetParamOrFactory
        (.factory fun _ => .str (printSelectionSet
          [FieldNode.mk "a" [], FieldNode.mk "b" [FieldNode.mk "c" []]])) [] =
      some [FieldNode.mk "a" [], FieldNode.mk "b" [FieldNode.mk "c" []]] := by
  have h := normalizeSelectionSet_equivalence
    [FieldNode.mk "a" [], FieldNode.mk "b" [FieldNode.mk "c" []]] [] (by decide)
  exact ⟨rfl, h.1, h.2.1, h.2.2.2.1 _ (Or.inl rfl)⟩

end GraphQLMesh
